import Mathlib

/-!
# Verification of the GCS transfer subsystem of NodeODM-ASC

A shallow embedding, in Lean 4, of the object-storage transfer module of the
repository (the `uploadPaths` / `cleanupLocalPaths` module in
`src/libs/odmInfo.js`), together with proofs of the specified properties.

The embedding follows the JavaScript source:
* the module-level guard (`storage` / `bucket` set) becomes `GcsModule`;
* the upload-list construction (`paths.forEach` with `fs.existsSync`,
  `fs.lstatSync`, `glob.sync`) becomes `buildUploadList` over an abstract
  filesystem `Fsys`; a thrown filesystem exception is an `Except.error`;
* the per-file upload options (`resumable`, `chunkSize`, `contentType`)
  become `mkUploadOptions` / `getContentType`;
* the `async.queue` worker pool with its retry/backoff handler, `q.kill`,
  `cbCalled` guard and `q.drain` becomes a small-step transition relation
  `Step` on `QState`, with `Reach` its reflexive-transitive closure;
* `cleanupLocalPaths` (an `async.eachSeries` whose iterator never passes an
  error to its continuation) becomes `cleanupLocalPaths` over `CleanupFs`.
-/

set_option autoImplicit false
set_option linter.unusedVariables false

/-- `MAX_RETRIES = 5` from the source (`const MAX_RETRIES = 5`). -/
def MAX_RETRIES : Nat := 5

/-- Model of `path.join(a, b)`: concatenation with a separator.  (Node's
`path.join` additionally normalizes `.` and `..` segments; no property in
this development depends on normalization.) -/
def pathJoin (a b : String) : String := a ++ "/" ++ b

/-- Model of `path.basename(p)`: the last `/`-separated component (the
characters after the last separator). -/
def basename (p : String) : String :=
  String.mk ((p.toList.reverse.takeWhile (fun c => c ≠ '/')).reverse)

/-- One entry of `uploadList`: the object literal pushed by the source,
`{ src, dest, relativePath, retries }`.  `retries` starts at `0`. -/
structure UTask where
  src : String
  dest : String
  relativePath : String
  retries : Nat
deriving DecidableEq, Repr

/-- The fatal error message built at the retry-exhaustion branch of the
upload worker: `Failed to upload [filename] after [MAX_RETRIES] retries:
[err.message]`, with `filename = path.basename(file.dest)`. -/
def mkFatalError (t : UTask) (emsg : String) : String :=
  "Failed to upload " ++ basename t.dest ++ " after " ++ toString MAX_RETRIES
    ++ " retries: " ++ emsg

/-- Abstract host filesystem as consumed while the upload list is built.
`pathExists` models `fs.existsSync` (which never throws),
`lstatIsDirectory` models `fs.lstatSync(p).isDirectory()` (`lstatSync` can
throw, hence `Except`), and `globFiles cwd p` models
`glob.sync(p ++ "/**", ... cwd, nodir, nosort)`: the regular files beneath
directory `p`, as paths relative to `cwd`. -/
structure Fsys where
  pathExists : String → Bool
  lstatIsDirectory : String → Except String Bool
  globFiles : String → String → List String

/-- One iteration of the `paths.forEach` loop of `uploadPaths`: the tasks
contributed by a single input path `p`, or the filesystem exception it
throws.  A non-existent path contributes nothing (it is skipped with a
debug log); a directory contributes one task per globbed file; a
non-directory contributes exactly one task. -/
def expandPath (fsy : Fsys) (srcFolder dstFolder p : String) :
    Except String (List UTask) :=
  let fullPath := pathJoin srcFolder p
  if fsy.pathExists fullPath = false then Except.ok []
  else
    match fsy.lstatIsDirectory fullPath with
    | Except.error e => Except.error e
    | Except.ok true =>
        Except.ok ((fsy.globFiles srcFolder p).map (fun gp =>
          { src := pathJoin srcFolder gp, dest := pathJoin dstFolder gp,
            relativePath := gp, retries := 0 }))
    | Except.ok false =>
        Except.ok [{ src := fullPath, dest := pathJoin dstFolder p,
                     relativePath := p, retries := 0 }]

/-- The whole `paths.forEach` upload-list construction.  A filesystem
exception thrown mid-loop aborts the construction (the JavaScript loop has
no `try`/`catch`, so the exception propagates out of `uploadPaths`). -/
def buildUploadList (fsy : Fsys) (srcFolder dstFolder : String) :
    List String → Except String (List UTask)
  | [] => Except.ok []
  | p :: rest =>
    match expandPath fsy srcFolder dstFolder p with
    | Except.error e => Except.error e
    | Except.ok l =>
      match buildUploadList fsy srcFolder dstFolder rest with
      | Except.error e => Except.error e
      | Except.ok ls => Except.ok (l ++ ls)

/-- The module-level state of the GCS module: whether `storage` and
`bucket` are non-null. -/
structure GcsModule where
  storageSet : Bool
  bucketSet : Bool
deriving DecidableEq, Repr

/-- `enabled()` from the source: `storage !== null && bucket !== null`. -/
def enabled (g : GcsModule) : Bool := g.storageSet && g.bucketSet

/-- Outcome of the synchronous part of `uploadPaths` (everything before the
worker pool does any transfer):
* `thrown e` — a filesystem exception escaped `uploadPaths`; the completion
  callback was not invoked and the pool was not started;
* `callbackError e` — the completion callback was invoked once with an
  error, without starting the pool;
* `callbackSuccess` — the completion callback was invoked once with no
  error, without starting the pool;
* `pool tasks` — the `async.queue` pool was created and `tasks` pushed;
  the completion callback is fired later by the queue phase (`Step`). -/
inductive UploadStart where
  | thrown (e : String)
  | callbackError (e : String)
  | callbackSuccess
  | pool (tasks : List UTask)
deriving DecidableEq, Repr

/-- How many times the completion callback has been invoked by the
synchronous part of `uploadPaths` alone. -/
def immediateCallbackCount : UploadStart → Nat
  | UploadStart.thrown _ => 0
  | UploadStart.callbackError _ => 1
  | UploadStart.callbackSuccess => 1
  | UploadStart.pool _ => 0

/-- The synchronous part of `uploadPaths(srcFolder, bucketName, dstFolder,
paths, cb, onOutput)` from the source: the `!storage || !bucket` guard, the
upload-list construction, and the `totalFiles === 0` short-circuit.
`bucketName` is accepted and unused, exactly as in the source. -/
def uploadPathsStart (g : GcsModule) (fsy : Fsys)
    (srcFolder bucketName dstFolder : String) (paths : List String) :
    UploadStart :=
  if g.storageSet = false ∨ g.bucketSet = false then
    UploadStart.callbackError "GCS is not initialized"
  else
    match buildUploadList fsy srcFolder dstFolder paths with
    | Except.error e => UploadStart.thrown e
    | Except.ok uploadList =>
      if uploadList.length = 0 then UploadStart.callbackSuccess
      else UploadStart.pool uploadList

/-- Model of Node's `path.extname`: the extension of the last path
component, from its last `.` (empty when there is no dot, or when the only
dot starts the component, as in `.bashrc`). -/
def extname (p : String) : String :=
  let cs := (basename p).toList
  let tail := (cs.reverse.takeWhile (fun c => c ≠ '.')).length
  if tail = cs.length then ""
  else if cs.length - tail - 1 = 0 then ""
  else String.mk (cs.drop (cs.length - tail - 1))

/-- The static extension-to-MIME table of `getContentType`. -/
def contentTypes : List (String × String) :=
  [(".tif", "image/tiff"), (".tiff", "image/tiff"), (".png", "image/png"),
   (".jpg", "image/jpeg"), (".jpeg", "image/jpeg"),
   (".json", "application/json"), (".xml", "application/xml"),
   (".zip", "application/zip"), (".las", "application/octet-stream"),
   (".laz", "application/octet-stream"), (".ply", "application/octet-stream"),
   (".obj", "model/obj"), (".mtl", "model/mtl"),
   (".glb", "model/gltf-binary"), (".pdf", "application/pdf"),
   (".txt", "text/plain"), (".csv", "text/csv"),
   (".geojson", "application/geo+json"),
   (".gpkg", "application/geopackage+sqlite3"),
   (".mbtiles", "application/x-sqlite3"),
   (".kmz", "application/vnd.google-earth.kmz")]

/-- `getContentType(filePath)` from the source: look the lower-cased
extension up in the static table, with a generic binary fallback. -/
def getContentType (filePath : String) : String :=
  match contentTypes.lookup (extname filePath).toLower with
  | some ct => ct
  | none => "application/octet-stream"

/-- The options object passed to `gcsFile.createWriteStream`. -/
structure UploadOptions where
  resumable : Bool
  validation : String
  contentType : String
  chunkSize : Option Nat
deriving DecidableEq, Repr

/-- Construction of the upload options in the queue worker:
`resumable: fileSize > 5 * 1024 * 1024`, `validation: 'crc32c'`,
`contentType: getContentType(file.src)`, and
`chunkSize = 10 * 1024 * 1024` added when `fileSize > 10 * 1024 * 1024`. -/
def mkUploadOptions (src : String) (fileSize : Nat) : UploadOptions :=
  let base : UploadOptions :=
    { resumable := decide (5 * 1024 * 1024 < fileSize),
      validation := "crc32c",
      contentType := getContentType src,
      chunkSize := none }
  if 10 * 1024 * 1024 < fileSize then
    { base with chunkSize := some (10 * 1024 * 1024) }
  else base

/-- Abstract host filesystem as consumed by `cleanupLocalPaths`.
`pathExists` models `fs.existsSync` (never throws); `lstatIsDirectory`
models `fs.lstatSync(p).isDirectory()` (`lstatSync` can throw, hence
`Except`, exactly as on the upload side); `rmdirResult p` /
`unlinkResult p` give the error (if any) that `rimraf` / `fs.unlink`
report for `p`. -/
structure CleanupFs where
  pathExists : String → Bool
  lstatIsDirectory : String → Except String Bool
  rmdirResult : String → Option String
  unlinkResult : String → Option String

/-- One iteration of the `async.eachSeries` of `cleanupLocalPaths`.
An `Except.error` is a thrown `lstatSync` exception — the iterator has no
`try`/`catch`, so it escapes uncaught and the series never finishes.
Otherwise, returns the error passed to the series continuation `done`
(the source passes none in every branch — deletion failures are only
logged), the warnings logged, and the paths on which a deletion was
attempted. -/
def cleanupStep (fsy : CleanupFs) (srcFolder p : String) :
    Except String (Option String × List String × List String) :=
  let fullPath := pathJoin srcFolder p
  if fsy.pathExists fullPath = false then Except.ok (none, [], [])
  else
    match fsy.lstatIsDirectory fullPath with
    | Except.error e => Except.error e
    | Except.ok true =>
      match fsy.rmdirResult fullPath with
      | some m =>
          Except.ok (none,
            ["Failed to delete directory " ++ fullPath ++ ": " ++ m], [p])
      | none => Except.ok (none, [], [p])
    | Except.ok false =>
      match fsy.unlinkResult fullPath with
      | some m =>
          Except.ok (none,
            ["Failed to delete file " ++ fullPath ++ ": " ++ m], [p])
      | none => Except.ok (none, [], [p])

/-- Aggregate outcome of a completed `cleanupLocalPaths` run: the error
the completion callback receives, the warnings logged, and the paths on
which a deletion was attempted. -/
structure CleanupResult where
  cbErr : Option String
  warnings : List String
  attempted : List String
deriving DecidableEq, Repr

/-- `cleanupLocalPaths(srcFolder, paths, cb, onOutput)` from the source:
an `async.eachSeries` over `paths` (a series error — which the iterator
never produces — would abort the remaining iterations), finished by
`cb(err)`.  An `Except.error` is a thrown `lstatSync` exception escaping
the iteration: the completion callback is then never invoked. -/
def cleanupLocalPaths (fsy : CleanupFs) (srcFolder : String) :
    List String → Except String CleanupResult
  | [] => Except.ok { cbErr := none, warnings := [], attempted := [] }
  | p :: rest =>
    match cleanupStep fsy srcFolder p with
    | Except.error e => Except.error e
    | Except.ok (some e, w, a) =>
        Except.ok { cbErr := some e, warnings := w, attempted := a }
    | Except.ok (none, w, a) =>
      match cleanupLocalPaths fsy srcFolder rest with
      | Except.error e => Except.error e
      | Except.ok r =>
          Except.ok { cbErr := r.cbErr, warnings := w ++ r.warnings,
                      attempted := a ++ r.attempted }

/-- Whether the `cleanupLocalPaths` run reached its completion callback at
all (a thrown `lstatSync` exception never does). -/
def cleanupCallbackFired : Except String CleanupResult → Bool
  | Except.ok _ => true
  | Except.error _ => false

/-- State of one batch's `async.queue` phase.
* `pending` — the queue's task list (`q.push` appends, workers take from
  the front);
* `running` — tasks currently held by a worker whose `done` has not run;
* `timers` — tasks sitting in a retry `setTimeout`, with their delay in
  milliseconds; the worker's `done` runs only inside the timeout, after
  re-pushing the task, so a waiting retry still occupies its worker slot;
* `completed` — `completedUploads`;
* `killed` — `q.kill()` has run (the drain handler was replaced by a
  no-op and the pending list emptied);
* `cbCalled` / `cbCalls` — the `cbCalled` guard and the record of every
  invocation of the completion callback (`none` = success, `some e` =
  error `e`);
* `delays` — the history of scheduled backoff delays, in milliseconds. -/
structure QState where
  pending : List UTask
  running : List UTask
  timers : List (UTask × Nat)
  completed : Nat
  killed : Bool
  cbCalled : Bool
  cbCalls : List (Option String)
  delays : List Nat
deriving DecidableEq, Repr

/-- The initial queue state: `q.push(uploadList, errHandler)`. -/
def initQ (tasks : List UTask) : QState :=
  { pending := tasks, running := [], timers := [], completed := 0,
    killed := false, cbCalled := false, cbCalls := [], delays := [] }

/-- The batch is over: nothing queued, nothing in flight, no retry timer. -/
def Terminal (s : QState) : Prop :=
  s.pending = [] ∧ s.running = [] ∧ s.timers = []

/-- The queue's drain check, run after every worker `done`: when the queue
is idle (no pending task, no busy worker — a retry timeout keeps its worker
busy) the `q.drain` handler fires, unless `q.kill()` replaced it with a
no-op; the handler itself is guarded by `cbCalled`. -/
def drainCheck (s : QState) : QState :=
  if s.pending = [] ∧ s.running = [] ∧ s.timers = [] ∧ s.killed = false
      ∧ s.cbCalled = false then
    { s with cbCalled := true, cbCalls := s.cbCalls ++ [none] }
  else s

/-- `errHandler` receiving a (non-null) fatal error for task `t` with
underlying message `m`: `q.kill()` (drain becomes a no-op and the pending
list is emptied), then `cb(err)` guarded by `cbCalled`. -/
def applyFatal (s : QState) (t : UTask) (m : String) : QState :=
  if s.cbCalled then { s with killed := true, pending := [] }
  else { s with killed := true, pending := [],
                cbCalled := true,
                cbCalls := s.cbCalls ++ [some (mkFatalError t m)] }

/-- One event of the queue phase.  `upl src retries` is the outcome the
remote store gives the streamed upload of `src` on the attempt made with
retry-count `retries` (`none` = the stream finishes, `some m` = it errors
with message `m`); `par` is `PARALLEL_UPLOADS`.
* `dispatch` — an idle worker (a retry timeout occupies its slot) takes
  the task at the front of the queue;
* `succeed` — a running task's stream finishes: `completedUploads++`,
  `done()`, drain check;
* `failRetry` — a running task's stream errors with `retries <
  MAX_RETRIES`: `file.retries++`, delay `2^retries * 1000` ms, and the task
  moves into a `setTimeout`; `done` has not run yet, so no drain check;
* `timerFire` — a retry timeout elapses: `q.push(file, errHandler)` then
  `done()` (with its drain check, vacuous because the push precedes it);
* `failFatal` — a running task's stream errors with retries exhausted:
  `done(Error(...))` routes the error to `errHandler`, then the drain
  check (vacuous, `q.kill` just made drain a no-op). -/
inductive Step (upl : String → Nat → Option String) (par : Nat) :
    QState → QState → Prop where
  | dispatch (s : QState) (t : UTask) (rest : List UTask)
      (hp : s.pending = t :: rest)
      (hpar : s.running.length + s.timers.length < par) :
      Step upl par s { s with pending := rest, running := s.running ++ [t] }
  | succeed (s : QState) (l₁ l₂ : List UTask) (t : UTask)
      (hr : s.running = l₁ ++ t :: l₂)
      (hok : upl t.src t.retries = none) :
      Step upl par s
        (drainCheck { s with running := l₁ ++ l₂,
                             completed := s.completed + 1 })
  | failRetry (s : QState) (l₁ l₂ : List UTask) (t : UTask) (m : String)
      (hr : s.running = l₁ ++ t :: l₂)
      (herr : upl t.src t.retries = some m)
      (hlt : t.retries < MAX_RETRIES) :
      Step upl par s
        { s with running := l₁ ++ l₂,
                 timers := s.timers ++
                   [({ t with retries := t.retries + 1 },
                     2 ^ (t.retries + 1) * 1000)],
                 delays := s.delays ++ [2 ^ (t.retries + 1) * 1000] }
  | timerFire (s : QState) (l₁ l₂ : List (UTask × Nat)) (t : UTask) (d : Nat)
      (ht : s.timers = l₁ ++ (t, d) :: l₂) :
      Step upl par s
        (drainCheck { s with timers := l₁ ++ l₂,
                             pending := s.pending ++ [t] })
  | failFatal (s : QState) (l₁ l₂ : List UTask) (t : UTask) (m : String)
      (hr : s.running = l₁ ++ t :: l₂)
      (herr : upl t.src t.retries = some m)
      (hge : ¬ t.retries < MAX_RETRIES) :
      Step upl par s
        (drainCheck (applyFatal { s with running := l₁ ++ l₂ } t m))

/-- All interleavings of the queue phase: the reflexive-transitive closure
of `Step`. -/
def Reach (upl : String → Nat → Option String) (par : Nat) :
    QState → QState → Prop :=
  Relation.ReflTransGen (Step upl par)

/-- The inductive invariant of the queue phase.  Reading its conjuncts:
1. the number of recorded callback invocations is governed by the
   `cbCalled` guard — `0` before the guard is set, `1` after;
2. a killed queue always has its callback already fired;
3. while the queue is alive the only possible callback is the success one;
4. a killed queue recorded exactly the fatal error of a retries-exhausted
   task whose upload failed;
5. if the callback fired with the queue alive, the batch had fully drained;
6. a fully drained batch has fired its callback;
7. after a kill, everything in the pending queue is a re-pushed retry
   (retry count at least 1) — no never-started task remains;
8. everything sitting in a retry timeout has retry count at least 1. -/
def BatchInv (upl : String → Nat → Option String) (s : QState) : Prop :=
  (s.cbCalls.length = if s.cbCalled then 1 else 0) ∧
  (s.killed = true → s.cbCalled = true) ∧
  (s.killed = false → s.cbCalls = [] ∨ s.cbCalls = [none]) ∧
  (s.killed = true → ∃ t m, upl t.src t.retries = some m ∧
      ¬ t.retries < MAX_RETRIES ∧ s.cbCalls = [some (mkFatalError t m)]) ∧
  (s.cbCalled = true → s.killed = false → Terminal s) ∧
  (Terminal s → s.cbCalled = true) ∧
  (s.killed = true → ∀ t ∈ s.pending, 0 < t.retries) ∧
  (∀ td ∈ s.timers, 0 < (Prod.fst td).retries)

/-- Retry counts are bounded by `MAX_RETRIES` everywhere in the batch. -/
def RetriesBounded (s : QState) : Prop :=
  (∀ t ∈ s.pending, t.retries ≤ MAX_RETRIES) ∧
  (∀ t ∈ s.running, t.retries ≤ MAX_RETRIES) ∧
  (∀ td ∈ s.timers, (Prod.fst td).retries ≤ MAX_RETRIES)

/-- A sample task, as built by the upload-list construction for one
regular file (`retries = 0`). -/
def sampleTask : UTask :=
  { src := "/var/www/data/uuid/odm_orthophoto.tif",
    dest := "results/odm_orthophoto.tif",
    relativePath := "odm_orthophoto.tif", retries := 0 }

/-- An upload outcome oracle for a file whose transfer fails on every
attempt. -/
def alwaysFail : String → Nat → Option String :=
  fun _ _ => some "socket hang up"

/-- Queue state of the always-failing singleton batch at the start of a
round: the task (carrying retry count `k`) is pending, `D` is the backoff
history so far. -/
def failSt (k : Nat) (D : List Nat) : QState :=
  { pending := [{ sampleTask with retries := k }], running := [],
    timers := [], completed := 0, killed := false, cbCalled := false,
    cbCalls := [], delays := D }

/-- The same batch after the worker pulled the task. -/
def failStRun (k : Nat) (D : List Nat) : QState :=
  { pending := [], running := [{ sampleTask with retries := k }],
    timers := [], completed := 0, killed := false, cbCalled := false,
    cbCalls := [], delays := D }

/-- The same batch while the retry waits out its backoff timeout. -/
def failStWait (k : Nat) (D : List Nat) : QState :=
  { pending := [], running := [],
    timers := [({ sampleTask with retries := k + 1 }, 2 ^ (k + 1) * 1000)],
    completed := 0, killed := false, cbCalled := false, cbCalls := [],
    delays := D ++ [2 ^ (k + 1) * 1000] }

/-- Terminal state of the always-failing singleton batch: killed queue,
the callback fired exactly once with the fatal message, and the five
backoff delays 2 s, 4 s, 8 s, 16 s, 32 s on record. -/
def sampleFatalState : QState :=
  { pending := [], running := [], timers := [], completed := 0,
    killed := true, cbCalled := true,
    cbCalls := [some (mkFatalError { sampleTask with retries := 5 }
      "socket hang up")],
    delays := [2000, 4000, 8000, 16000, 32000] }

/-- A GCS module state with both `storage` and `bucket` set. -/
def gcsReady : GcsModule := { storageSet := true, bucketSet := true }

/-- A GCS module state before (or without) a successful `initialize`. -/
def gcsOff : GcsModule := { storageSet := false, bucketSet := false }

/-- A filesystem on which every path exists and is a regular file. -/
def fsSingleFile : Fsys :=
  { pathExists := fun _ => true,
    lstatIsDirectory := fun _ => Except.ok false,
    globFiles := fun _ _ => [] }

/-- A filesystem on which no path exists. -/
def fsMissing : Fsys :=
  { pathExists := fun _ => false,
    lstatIsDirectory := fun _ => Except.ok false,
    globFiles := fun _ _ => [] }

/-- A filesystem on which `lstatSync` throws (for example a permission
problem racing with the listing). -/
def fsBroken : Fsys :=
  { pathExists := fun _ => true,
    lstatIsDirectory := fun _ => Except.error "EACCES: permission denied",
    globFiles := fun _ _ => [] }

/-- A filesystem with one directory `/data/odm_texturing` holding two
regular files. -/
def fsDirTree : Fsys :=
  { pathExists := fun _ => true,
    lstatIsDirectory := fun p => Except.ok (p == "/data/odm_texturing"),
    globFiles := fun _ p =>
      [pathJoin p "odm_textured_model.obj",
       pathJoin p "odm_textured_model.mtl"] }

/-- A cleanup filesystem on which everything exists,
`/var/www/data/uuid/odm_texturing` is a directory whose `rimraf` fails,
deleting the file `/var/www/data/uuid/images` fails, and every other
deletion succeeds. -/
def cleanupFsSample : CleanupFs :=
  { pathExists := fun _ => true,
    lstatIsDirectory := fun p =>
      Except.ok (p == "/var/www/data/uuid/odm_texturing"),
    rmdirResult := fun p =>
      if p = "/var/www/data/uuid/odm_texturing" then
        some "ENOTEMPTY: directory not empty"
      else none,
    unlinkResult := fun p =>
      if p = "/var/www/data/uuid/images" then some "EBUSY: resource busy"
      else none }

/-- A cleanup filesystem on which `lstatSync` throws for an existing
path. -/
def cleanupFsCrash : CleanupFs :=
  { pathExists := fun _ => true,
    lstatIsDirectory := fun _ => Except.error "EACCES: permission denied",
    rmdirResult := fun _ => none,
    unlinkResult := fun _ => none }

/-- An upload outcome oracle for transfers that always succeed. -/
def alwaysOk : String → Nat → Option String := fun _ _ => none

/-- Final state of the all-successful singleton batch: drained queue,
callback fired once with no error. -/
def sampleDoneState : QState :=
  { pending := [], running := [], timers := [], completed := 1,
    killed := false, cbCalled := true, cbCalls := [none], delays := [] }

@[simp] theorem drainCheck_pending (s : QState) :
    (drainCheck s).pending = s.pending := by
  unfold drainCheck; split <;> rfl

@[simp] theorem drainCheck_running (s : QState) :
    (drainCheck s).running = s.running := by
  unfold drainCheck; split <;> rfl

@[simp] theorem drainCheck_timers (s : QState) :
    (drainCheck s).timers = s.timers := by
  unfold drainCheck; split <;> rfl

@[simp] theorem drainCheck_killed (s : QState) :
    (drainCheck s).killed = s.killed := by
  unfold drainCheck; split <;> rfl

@[simp] theorem drainCheck_completed (s : QState) :
    (drainCheck s).completed = s.completed := by
  unfold drainCheck; split <;> rfl

@[simp] theorem drainCheck_delays (s : QState) :
    (drainCheck s).delays = s.delays := by
  unfold drainCheck; split <;> rfl

@[simp] theorem applyFatal_killed (s : QState) (t : UTask) (m : String) :
    (applyFatal s t m).killed = true := by
  unfold applyFatal; split <;> rfl

@[simp] theorem applyFatal_pending (s : QState) (t : UTask) (m : String) :
    (applyFatal s t m).pending = [] := by
  unfold applyFatal; split <;> rfl

@[simp] theorem applyFatal_running (s : QState) (t : UTask) (m : String) :
    (applyFatal s t m).running = s.running := by
  unfold applyFatal; split <;> rfl

@[simp] theorem applyFatal_timers (s : QState) (t : UTask) (m : String) :
    (applyFatal s t m).timers = s.timers := by
  unfold applyFatal; split <;> rfl

@[simp] theorem applyFatal_delays (s : QState) (t : UTask) (m : String) :
    (applyFatal s t m).delays = s.delays := by
  unfold applyFatal; split <;> rfl

@[simp] theorem applyFatal_cbCalled (s : QState) (t : UTask) (m : String) :
    (applyFatal s t m).cbCalled = true := by
  unfold applyFatal; split
  · next h => exact h
  · rfl

/-- Case analysis for the drain check: either the drain handler does not
fire, or the queue was idle with a live drain handler and an unused
callback guard, and the callback is recorded. -/
theorem drainCheck_spec (s : QState) :
    (drainCheck s = s ∧
      ¬ (s.pending = [] ∧ s.running = [] ∧ s.timers = [] ∧
          s.killed = false ∧ s.cbCalled = false)) ∨
    ((s.pending = [] ∧ s.running = [] ∧ s.timers = [] ∧
        s.killed = false ∧ s.cbCalled = false) ∧
      drainCheck s =
        { s with cbCalled := true, cbCalls := s.cbCalls ++ [none] }) := by
  by_cases h : s.pending = [] ∧ s.running = [] ∧ s.timers = [] ∧
      s.killed = false ∧ s.cbCalled = false
  · right; exact ⟨h, by simp [drainCheck, h]⟩
  · left; exact ⟨by simp [drainCheck, h], h⟩

/-- Case analysis for `errHandler`'s fatal branch. -/
theorem applyFatal_spec (s : QState) (t : UTask) (m : String) :
    (s.cbCalled = true ∧
      applyFatal s t m = { s with killed := true, pending := [] }) ∨
    (s.cbCalled = false ∧
      applyFatal s t m =
        { s with killed := true, pending := [], cbCalled := true,
                 cbCalls := s.cbCalls ++ [some (mkFatalError t m)] }) := by
  by_cases h : s.cbCalled = true
  · left; exact ⟨h, by simp [applyFatal, h]⟩
  · right
    refine ⟨by simpa using h, ?_⟩
    simp [applyFatal, h]

/-- The invariant holds initially, for a non-empty batch. -/
theorem batchInv_init (upl : String → Nat → Option String)
    (tasks : List UTask) (hne : tasks ≠ []) : BatchInv upl (initQ tasks) := by
  refine ⟨by simp [initQ], by simp [initQ], by simp [initQ],
    by simp [initQ], by simp [initQ], ?_, by simp [initQ], by simp [initQ]⟩
  intro hterm
  exact absurd hterm.1 hne

/-- After `q.kill()` the drain handler is a no-op. -/
theorem drainCheck_of_killed (s : QState) (hk : s.killed = true) :
    drainCheck s = s := by
  have hC : ¬ (s.pending = [] ∧ s.running = [] ∧ s.timers = [] ∧
      s.killed = false ∧ s.cbCalled = false) := by
    intro h
    rw [hk] at h
    simpa using h.2.2.2.1
  unfold drainCheck
  rw [if_neg hC]

/-- Every queue event preserves the batch invariant. -/
theorem batchInv_step {upl : String → Nat → Option String} {par : Nat}
    {s s' : QState} (hstep : Step upl par s s') (hinv : BatchInv upl s) :
    BatchInv upl s' := by
  obtain ⟨h1, h2, h3, h4, h5, h6, h7, h8⟩ := hinv
  cases hstep with
  | dispatch t rest hp hpar =>
      refine ⟨h1, h2, h3, h4, ?_, ?_, ?_, h8⟩
      · intro hc hk
        obtain ⟨hpe, hru, hti⟩ := h5 hc hk
        rw [hp] at hpe
        exact absurd hpe (by simp)
      · intro hterm
        exact absurd hterm.2.1 (by simp)
      · intro hk u hu
        exact h7 hk u (by rw [hp]; exact List.mem_cons_of_mem _ hu)
  | succeed l₁ l₂ t hr hok =>
      rcases drainCheck_spec
          { s with running := l₁ ++ l₂, completed := s.completed + 1 } with
        ⟨heq, hneg⟩ | ⟨hcond, heq⟩
      · rw [heq]
        refine ⟨h1, h2, h3, h4, ?_, ?_, h7, h8⟩
        · intro hc hk
          obtain ⟨hpe, hru, hti⟩ := h5 hc hk
          rw [hr] at hru
          exact absurd hru (by simp)
        · intro hterm
          obtain ⟨hpe, hru, hti⟩ := hterm
          by_cases hcb : s.cbCalled = true
          · exact hcb
          · by_cases hk : s.killed = true
            · exact h2 hk
            · exact absurd
                ⟨hpe, hru, hti, by simpa using hk, by simpa using hcb⟩ hneg
      · obtain ⟨hpe, hru, hti, hk, hcb⟩ := hcond
        have hpe2 : s.pending = [] := hpe
        have hk2 : s.killed = false := hk
        have hcb2 : s.cbCalled = false := hcb
        have hcalls : s.cbCalls = [] := by
          have h1' := h1
          rw [hcb2] at h1'
          simpa using h1'
        rw [heq]
        refine ⟨?_, ?_, ?_, ?_, ?_, ?_, ?_, ?_⟩
        · simp [hcalls]
        · intro _; rfl
        · intro _
          right
          simp [hcalls]
        · intro hkk
          have hkk2 : s.killed = true := hkk
          rw [hk2] at hkk2
          simp at hkk2
        · intro _ _
          exact ⟨hpe, hru, hti⟩
        · intro _; rfl
        · intro _ u hu
          have hu2 : u ∈ s.pending := hu
          rw [hpe2] at hu2
          simp at hu2
        · exact h8
  | failRetry l₁ l₂ t m hr herr hlt =>
      refine ⟨h1, h2, h3, h4, ?_, ?_, h7, ?_⟩
      · intro hc hk
        obtain ⟨hpe, hru, hti⟩ := h5 hc hk
        rw [hr] at hru
        exact absurd hru (by simp)
      · intro hterm
        exact absurd hterm.2.2 (by simp)
      · intro td htd
        rcases List.mem_append.mp htd with hin | hin
        · exact h8 td hin
        · have htd2 : td = ({ t with retries := t.retries + 1 },
              2 ^ (t.retries + 1) * 1000) := by simpa using hin
          rw [htd2]
          simp
  | timerFire l₁ l₂ t d ht =>
      rcases drainCheck_spec
          { s with timers := l₁ ++ l₂, pending := s.pending ++ [t] } with
        ⟨heq, hneg⟩ | ⟨hcond, heq⟩
      · rw [heq]
        refine ⟨h1, h2, h3, h4, ?_, ?_, ?_, ?_⟩
        · intro hc hk
          obtain ⟨hpe, hru, hti⟩ := h5 hc hk
          rw [ht] at hti
          exact absurd hti (by simp)
        · intro hterm
          exact absurd hterm.1 (by simp)
        · intro hk u hu
          rcases List.mem_append.mp hu with hin | hin
          · exact h7 hk u hin
          · have hu2 : u = t := by simpa using hin
            rw [hu2]
            exact h8 (t, d) (by rw [ht]; simp)
        · intro td htd
          apply h8
          rw [ht]
          rcases List.mem_append.mp htd with hin | hin
          · exact List.mem_append.mpr (Or.inl hin)
          · exact List.mem_append.mpr (Or.inr (List.mem_cons_of_mem _ hin))
      · obtain ⟨hpe, _, _, _, _⟩ := hcond
        exact absurd hpe (by simp)
  | failFatal l₁ l₂ t m hr herr hge =>
      rcases applyFatal_spec { s with running := l₁ ++ l₂ } t m with
        ⟨hcb, heqf⟩ | ⟨hcb, heqf⟩
      · have hk : s.killed = true := by
          by_cases hkk : s.killed = true
          · exact hkk
          · exfalso
            obtain ⟨hpe, hru, hti⟩ := h5 hcb (by simpa using hkk)
            rw [hr] at hru
            exact absurd hru (by simp)
        rw [heqf, drainCheck_of_killed _ (by simp)]
        refine ⟨h1, ?_, ?_, ?_, ?_, ?_, ?_, h8⟩
        · intro _; exact hcb
        · intro hkk; simp at hkk
        · intro _; exact h4 hk
        · intro _ hkk; simp at hkk
        · intro _; exact hcb
        · intro _ u hu; simp at hu
      · have hcalls : s.cbCalls = [] := by
          have h1' := h1
          rw [hcb] at h1'
          simpa using h1'
        rw [heqf, drainCheck_of_killed _ (by simp)]
        refine ⟨?_, ?_, ?_, ?_, ?_, ?_, ?_, h8⟩
        · simp [hcalls]
        · intro _; rfl
        · intro hkk; simp at hkk
        · intro _
          exact ⟨t, m, herr, hge, by simp [hcalls]⟩
        · intro _ hkk; simp at hkk
        · intro _; rfl
        · intro _ u hu; simp at hu

/-- The batch invariant holds in every reachable state of a non-empty
batch. -/
theorem batchInv_reach {upl : String → Nat → Option String} {par : Nat}
    {tasks : List UTask} {s : QState} (hne : tasks ≠ [])
    (hreach : Reach upl par (initQ tasks) s) : BatchInv upl s := by
  induction hreach with
  | refl => exact batchInv_init upl tasks hne
  | tail hr hstep ih => exact batchInv_step hstep ih

/-- Every queue event preserves the retry bound: a retry is only
rescheduled from a strictly smaller count, so the increment stays within
the cap. -/
theorem retriesBounded_step {upl : String → Nat → Option String} {par : Nat}
    {s s' : QState} (hstep : Step upl par s s') (hrb : RetriesBounded s) :
    RetriesBounded s' := by
  obtain ⟨hbp, hbr, hbt⟩ := hrb
  cases hstep with
  | dispatch t rest hp hpar =>
      refine ⟨?_, ?_, hbt⟩
      · intro u hu
        exact hbp u (by rw [hp]; exact List.mem_cons_of_mem _ hu)
      · intro u hu
        rcases List.mem_append.mp hu with hin | hin
        · exact hbr u hin
        · have hu2 : u = t := by simpa using hin
          rw [hu2]
          exact hbp t (by rw [hp]; exact List.mem_cons_self _ _)
  | succeed l₁ l₂ t hr hok =>
      unfold RetriesBounded
      simp only [drainCheck_pending, drainCheck_running, drainCheck_timers]
      refine ⟨?_, ?_, ?_⟩
      · intro u hu
        exact hbp u hu
      · intro u hu
        have hu2 : u ∈ l₁ ++ l₂ := hu
        apply hbr u
        rw [hr]
        rcases List.mem_append.mp hu2 with hin | hin
        · exact List.mem_append.mpr (Or.inl hin)
        · exact List.mem_append.mpr (Or.inr (List.mem_cons_of_mem _ hin))
      · intro td htd
        exact hbt td htd
  | failRetry l₁ l₂ t m hr herr hlt =>
      refine ⟨hbp, ?_, ?_⟩
      · intro u hu
        apply hbr u
        rw [hr]
        rcases List.mem_append.mp hu with hin | hin
        · exact List.mem_append.mpr (Or.inl hin)
        · exact List.mem_append.mpr (Or.inr (List.mem_cons_of_mem _ hin))
      · intro td htd
        rcases List.mem_append.mp htd with hin | hin
        · exact hbt td hin
        · have htd2 : td = ({ t with retries := t.retries + 1 },
              2 ^ (t.retries + 1) * 1000) := by simpa using hin
          rw [htd2]
          simpa using hlt
  | timerFire l₁ l₂ t d ht =>
      unfold RetriesBounded
      simp only [drainCheck_pending, drainCheck_running, drainCheck_timers]
      refine ⟨?_, ?_, ?_⟩
      · intro u hu
        have hu2 : u ∈ s.pending ++ [t] := hu
        rcases List.mem_append.mp hu2 with hin | hin
        · exact hbp u hin
        · have hu3 : u = t := by simpa using hin
          rw [hu3]
          exact hbt (t, d) (by rw [ht]; simp)
      · intro u hu
        exact hbr u hu
      · intro td htd
        have htd2 : td ∈ l₁ ++ l₂ := htd
        apply hbt td
        rw [ht]
        rcases List.mem_append.mp htd2 with hin | hin
        · exact List.mem_append.mpr (Or.inl hin)
        · exact List.mem_append.mpr (Or.inr (List.mem_cons_of_mem _ hin))
  | failFatal l₁ l₂ t m hr herr hge =>
      refine ⟨?_, ?_, ?_⟩
      · intro u hu
        simp at hu
      · intro u hu
        have hu2 : u ∈ l₁ ++ l₂ := by simpa using hu
        apply hbr u
        rw [hr]
        rcases List.mem_append.mp hu2 with hin | hin
        · exact List.mem_append.mpr (Or.inl hin)
        · exact List.mem_append.mpr (Or.inr (List.mem_cons_of_mem _ hin))
      · intro td htd
        have htd2 : td ∈ s.timers := by simpa using htd
        exact hbt td htd2

/-- The retry bound holds in every reachable state of a batch whose tasks
start, as built, with `retries = 0`. -/
theorem retriesBounded_reach {upl : String → Nat → Option String}
    {par : Nat} {tasks : List UTask} {s : QState}
    (h0 : ∀ t ∈ tasks, t.retries = 0)
    (hreach : Reach upl par (initQ tasks) s) : RetriesBounded s := by
  induction hreach with
  | refl =>
      refine ⟨?_, by simp [initQ], by simp [initQ]⟩
      intro t ht
      rw [h0 t ht]
      simp [MAX_RETRIES]
  | tail hr hstep ih => exact retriesBounded_step hstep ih

/-- Inversion: the only queue event that records a backoff delay is a
retry of a running task whose upload failed with a retry count strictly
below `MAX_RETRIES`; the delay recorded and the timeout scheduled are
`2 ^ (retries + 1) * 1000` milliseconds for the incremented count. -/
theorem delays_growth_inv {upl : String → Nat → Option String} {par : Nat}
    {s s' : QState} (hstep : Step upl par s s')
    (hgrow : s.delays.length < s'.delays.length) :
    ∃ l₁ l₂ t m, s.running = l₁ ++ t :: l₂ ∧ upl t.src t.retries = some m ∧
      t.retries < MAX_RETRIES ∧
      s'.delays = s.delays ++ [2 ^ (t.retries + 1) * 1000] ∧
      s'.timers = s.timers ++ [({ t with retries := t.retries + 1 },
        2 ^ (t.retries + 1) * 1000)] := by
  cases hstep with
  | dispatch t rest hp hpar => exact absurd hgrow (by simp)
  | succeed l₁ l₂ t hr hok => exact absurd hgrow (by simp)
  | failRetry l₁ l₂ t m hr herr hlt =>
      exact ⟨l₁, l₂, t, m, hr, herr, hlt, rfl, rfl⟩
  | timerFire l₁ l₂ t d ht => exact absurd hgrow (by simp)
  | failFatal l₁ l₂ t m hr herr hge => exact absurd hgrow (by simp)

/-- Inversion: the only queue event that schedules a new retry timeout is
a retry of a running task whose upload failed with a retry count strictly
below `MAX_RETRIES` — in particular a task whose retries are exhausted is
never rescheduled. -/
theorem timers_growth_inv {upl : String → Nat → Option String} {par : Nat}
    {s s' : QState} (hstep : Step upl par s s')
    (hgrow : s.timers.length < s'.timers.length) :
    ∃ l₁ l₂ t m, s.running = l₁ ++ t :: l₂ ∧ upl t.src t.retries = some m ∧
      t.retries < MAX_RETRIES ∧
      s'.timers = s.timers ++ [({ t with retries := t.retries + 1 },
        2 ^ (t.retries + 1) * 1000)] := by
  cases hstep with
  | dispatch t rest hp hpar => exact absurd hgrow (by simp)
  | succeed l₁ l₂ t hr hok => exact absurd hgrow (by simp)
  | failRetry l₁ l₂ t m hr herr hlt =>
      exact ⟨l₁, l₂, t, m, hr, herr, hlt, rfl⟩
  | timerFire l₁ l₂ t d ht =>
      exfalso
      have h2 : (l₁ ++ (t, d) :: l₂).length < (l₁ ++ l₂).length := by
        rw [ht] at hgrow
        simp only [drainCheck_timers] at hgrow
        exact hgrow
      simp [List.length_append] at h2
  | failFatal l₁ l₂ t m hr herr hge => exact absurd hgrow (by simp)

/-- One failed attempt of the always-failing task: dispatch, stream error
with retry, timeout elapsing and re-push. -/
theorem failRound (k : Nat) (hk : k < 5) (D : List Nat) :
    Reach alwaysFail 16 (failSt k D)
      (failSt (k + 1) (D ++ [2 ^ (k + 1) * 1000])) := by
  have h1 : Step alwaysFail 16 (failSt k D) (failStRun k D) :=
    Step.dispatch _ { sampleTask with retries := k } [] rfl (by simp [failSt])
  have h2 : Step alwaysFail 16 (failStRun k D) (failStWait k D) :=
    Step.failRetry _ [] [] { sampleTask with retries := k } "socket hang up"
      rfl rfl (by simpa [MAX_RETRIES] using hk)
  have h3 : Step alwaysFail 16 (failStWait k D)
      (failSt (k + 1) (D ++ [2 ^ (k + 1) * 1000])) :=
    Step.timerFire _ [] [] { sampleTask with retries := k + 1 }
      (2 ^ (k + 1) * 1000) rfl
  exact Relation.ReflTransGen.head h1
    (Relation.ReflTransGen.head h2 (Relation.ReflTransGen.single h3))

/-- The full run of the always-failing singleton batch: five retry rounds
with delays 2 s, 4 s, 8 s, 16 s, 32 s, then the sixth attempt fails with
retries exhausted and the batch dies with the fatal callback. -/
theorem sampleFatalReach :
    Reach alwaysFail 16 (initQ [sampleTask]) sampleFatalState := by
  have r01 : Reach alwaysFail 16 (failSt 0 []) (failSt 1 [2000]) :=
    failRound 0 (by decide) []
  have r12 : Reach alwaysFail 16 (failSt 1 [2000]) (failSt 2 [2000, 4000]) :=
    failRound 1 (by decide) [2000]
  have r23 : Reach alwaysFail 16 (failSt 2 [2000, 4000])
      (failSt 3 [2000, 4000, 8000]) :=
    failRound 2 (by decide) [2000, 4000]
  have r34 : Reach alwaysFail 16 (failSt 3 [2000, 4000, 8000])
      (failSt 4 [2000, 4000, 8000, 16000]) :=
    failRound 3 (by decide) [2000, 4000, 8000]
  have r45 : Reach alwaysFail 16 (failSt 4 [2000, 4000, 8000, 16000])
      (failSt 5 [2000, 4000, 8000, 16000, 32000]) :=
    failRound 4 (by decide) [2000, 4000, 8000, 16000]
  have hdisp : Step alwaysFail 16 (failSt 5 [2000, 4000, 8000, 16000, 32000])
      (failStRun 5 [2000, 4000, 8000, 16000, 32000]) :=
    Step.dispatch _ { sampleTask with retries := 5 } [] rfl (by decide)
  have hfatal : Step alwaysFail 16
      (failStRun 5 [2000, 4000, 8000, 16000, 32000]) sampleFatalState :=
    Step.failFatal _ [] [] { sampleTask with retries := 5 } "socket hang up"
      rfl rfl (by decide)
  exact (((((r01.trans r12).trans r23).trans r34).trans r45).tail
    hdisp).tail hfatal

/-- The `enabled` guard, read back from the `!storage || !bucket` test. -/
theorem guard_of_enabled {g : GcsModule} (hen : enabled g = true) :
    ¬ (g.storageSet = false ∨ g.bucketSet = false) := by
  unfold enabled at hen
  rw [Bool.and_eq_true] at hen
  rintro (h | h)
  · rw [hen.1] at h
    exact absurd h (by decide)
  · rw [hen.2] at h
    exact absurd h (by decide)

/-- Inversion of the synchronous phase: the pool only starts for an
initialized module, with the task list the construction returned, and only
when that list is non-empty. -/
theorem uploadPathsStart_pool_inv {g : GcsModule} {fsy : Fsys}
    {srcFolder bucketName dstFolder : String} {paths : List String}
    {tasks : List UTask}
    (hstart : uploadPathsStart g fsy srcFolder bucketName dstFolder paths =
      UploadStart.pool tasks) :
    buildUploadList fsy srcFolder dstFolder paths = Except.ok tasks ∧
      tasks ≠ [] := by
  unfold uploadPathsStart at hstart
  by_cases hg : g.storageSet = false ∨ g.bucketSet = false
  · rw [if_pos hg] at hstart
    exact absurd hstart (by simp)
  · rw [if_neg hg] at hstart
    cases hbl : buildUploadList fsy srcFolder dstFolder paths with
    | error e =>
        rw [hbl] at hstart
        exact absurd hstart (by simp)
    | ok l =>
        rw [hbl] at hstart
        simp only [] at hstart
        by_cases hlen : l.length = 0
        · rw [if_pos hlen] at hstart
          exact absurd hstart (by simp)
        · rw [if_neg hlen] at hstart
          have hl : l = tasks := by
            injection hstart
          subst hl
          refine ⟨rfl, ?_⟩
          intro hnil
          rw [hnil] at hlen
          exact hlen rfl

/-- C4: for a batch whose expanded task list is empty
(`totalTaskCount = 0`), `uploadPaths` invokes the completion callback with
no error immediately, without starting the worker pool. -/
theorem empty_batch_immediate_success
    (g : GcsModule) (fsy : Fsys) (srcFolder bucketName dstFolder : String)
    (paths : List String)
    (hen : enabled g = true)
    (hempty : buildUploadList fsy srcFolder dstFolder paths =
      Except.ok []) :
    uploadPathsStart g fsy srcFolder bucketName dstFolder paths =
      UploadStart.callbackSuccess ∧
    immediateCallbackCount
      (uploadPathsStart g fsy srcFolder bucketName dstFolder paths) = 1 ∧
    ∀ tasks, uploadPathsStart g fsy srcFolder bucketName dstFolder paths ≠
      UploadStart.pool tasks := by
  have hg := guard_of_enabled hen
  have hres : uploadPathsStart g fsy srcFolder bucketName dstFolder paths =
      UploadStart.callbackSuccess := by
    unfold uploadPathsStart
    rw [if_neg hg]
    simp [hempty]
  refine ⟨hres, by rw [hres]; rfl, ?_⟩
  intro tasks
  rw [hres]
  simp

/-- Witness for C4: a manifest whose single path does not exist expands to
an empty task list and the callback signals success at once. -/
theorem empty_batch_immediate_success_witness :
    uploadPathsStart gcsReady fsMissing "/var/www/data/uuid" "odm-bucket"
      "results" ["missing.txt"] = UploadStart.callbackSuccess ∧
    immediateCallbackCount
      (uploadPathsStart gcsReady fsMissing "/var/www/data/uuid" "odm-bucket"
        "results" ["missing.txt"]) = 1 ∧
    ∀ tasks, uploadPathsStart gcsReady fsMissing "/var/www/data/uuid"
      "odm-bucket" "results" ["missing.txt"] ≠ UploadStart.pool tasks :=
  empty_batch_immediate_success gcsReady fsMissing "/var/www/data/uuid"
    "odm-bucket" "results" ["missing.txt"] rfl rfl

/-- C6: path expansion skips a non-existent path (silently: the rest of
the construction is unchanged and no error is produced), emits one task
per globbed regular file beneath a directory path with `relativePath` the
file's path relative to the root, and emits exactly one task for a path
that is a regular file. -/
theorem path_expansion_cases
    (fsy : Fsys) (srcFolder dstFolder p : String) (rest : List String) :
    (fsy.pathExists (pathJoin srcFolder p) = false →
      buildUploadList fsy srcFolder dstFolder (p :: rest) =
        buildUploadList fsy srcFolder dstFolder rest) ∧
    (∀ l, fsy.pathExists (pathJoin srcFolder p) = true →
      fsy.lstatIsDirectory (pathJoin srcFolder p) = Except.ok true →
      buildUploadList fsy srcFolder dstFolder rest = Except.ok l →
      buildUploadList fsy srcFolder dstFolder (p :: rest) =
        Except.ok ((fsy.globFiles srcFolder p).map (fun gp =>
          { src := pathJoin srcFolder gp, dest := pathJoin dstFolder gp,
            relativePath := gp, retries := 0 }) ++ l)) ∧
    (∀ l, fsy.pathExists (pathJoin srcFolder p) = true →
      fsy.lstatIsDirectory (pathJoin srcFolder p) = Except.ok false →
      buildUploadList fsy srcFolder dstFolder rest = Except.ok l →
      buildUploadList fsy srcFolder dstFolder (p :: rest) =
        Except.ok ({ src := pathJoin srcFolder p,
                     dest := pathJoin dstFolder p,
                     relativePath := p, retries := 0 } :: l)) := by
  refine ⟨?_, ?_, ?_⟩
  · intro hne
    have hexp : expandPath fsy srcFolder dstFolder p = Except.ok [] := by
      simp [expandPath, hne]
    simp only [buildUploadList, hexp]
    cases hbl : buildUploadList fsy srcFolder dstFolder rest <;> simp
  · intro l hex hdir hrest
    have hexp : expandPath fsy srcFolder dstFolder p =
        Except.ok ((fsy.globFiles srcFolder p).map (fun gp =>
          { src := pathJoin srcFolder gp, dest := pathJoin dstFolder gp,
            relativePath := gp, retries := 0 })) := by
      simp [expandPath, hex, hdir]
    simp only [buildUploadList, hexp, hrest]
  · intro l hex hdir hrest
    have hexp : expandPath fsy srcFolder dstFolder p =
        Except.ok [{ src := pathJoin srcFolder p,
                     dest := pathJoin dstFolder p,
                     relativePath := p, retries := 0 }] := by
      simp [expandPath, hex, hdir]
    simp only [buildUploadList, hexp, hrest]
    simp

/-- Witness for C6: expanding one directory path yields one task per file
beneath it, with `relativePath` relative to the source root. -/
theorem path_expansion_cases_witness :
    buildUploadList fsDirTree "/data" "results" ["odm_texturing"] =
      Except.ok
        [{ src := "/data/odm_texturing/odm_textured_model.obj",
           dest := "results/odm_texturing/odm_textured_model.obj",
           relativePath := "odm_texturing/odm_textured_model.obj",
           retries := 0 },
         { src := "/data/odm_texturing/odm_textured_model.mtl",
           dest := "results/odm_texturing/odm_textured_model.mtl",
           relativePath := "odm_texturing/odm_textured_model.mtl",
           retries := 0 }] :=
  (path_expansion_cases fsDirTree "/data" "results" "odm_texturing" []).2.1
    [] rfl rfl rfl

/-- C7 counterexample: a filesystem error while building the task list
(`lstatSync` throwing) escapes `uploadPaths` as a synchronous exception —
the completion callback is NOT invoked, contradicting the claim that the
error is delivered through the completion callback. -/
theorem listing_error_not_reported_via_callback :
    buildUploadList fsBroken "/var/www/data/uuid" "results" ["images"] =
      Except.error "EACCES: permission denied" ∧
    uploadPathsStart gcsReady fsBroken "/var/www/data/uuid" "odm-bucket"
      "results" ["images"] =
      UploadStart.thrown "EACCES: permission denied" ∧
    immediateCallbackCount
      (uploadPathsStart gcsReady fsBroken "/var/www/data/uuid" "odm-bucket"
        "results" ["images"]) = 0 :=
  ⟨rfl, rfl, rfl⟩

/-- C7 (amended): a filesystem error while building the task list aborts
`uploadPaths` early — before the worker pool starts any transfer — as a
synchronously thrown exception to the caller; the completion callback is
not invoked with it. -/
theorem listing_error_thrown_before_pool
    (g : GcsModule) (fsy : Fsys) (srcFolder bucketName dstFolder : String)
    (paths : List String) (e : String)
    (hen : enabled g = true)
    (herr : buildUploadList fsy srcFolder dstFolder paths =
      Except.error e) :
    uploadPathsStart g fsy srcFolder bucketName dstFolder paths =
      UploadStart.thrown e ∧
    immediateCallbackCount
      (uploadPathsStart g fsy srcFolder bucketName dstFolder paths) = 0 ∧
    ∀ tasks, uploadPathsStart g fsy srcFolder bucketName dstFolder paths ≠
      UploadStart.pool tasks := by
  have hg := guard_of_enabled hen
  have hres : uploadPathsStart g fsy srcFolder bucketName dstFolder paths =
      UploadStart.thrown e := by
    unfold uploadPathsStart
    rw [if_neg hg]
    simp [herr]
  refine ⟨hres, by rw [hres]; rfl, ?_⟩
  intro tasks
  rw [hres]
  simp

/-- Witness for the amended C7 at a concrete broken filesystem. -/
theorem listing_error_thrown_before_pool_witness :
    uploadPathsStart gcsReady fsBroken "/var/www/data/job" "odm-bucket"
      "results" ["odm_georeferencing"] =
      UploadStart.thrown "EACCES: permission denied" ∧
    immediateCallbackCount
      (uploadPathsStart gcsReady fsBroken "/var/www/data/job" "odm-bucket"
        "results" ["odm_georeferencing"]) = 0 ∧
    ∀ tasks, uploadPathsStart gcsReady fsBroken "/var/www/data/job"
      "odm-bucket" "results" ["odm_georeferencing"] ≠
      UploadStart.pool tasks :=
  listing_error_thrown_before_pool gcsReady fsBroken "/var/www/data/job"
    "odm-bucket" "results" ["odm_georeferencing"]
    "EACCES: permission denied" rfl rfl

/-- C8: transfer mode is chosen by size — resumable exactly for files
larger than 5 MiB, 10 MiB chunking exactly for files larger than 10 MiB,
so a 12 MiB file is uploaded resumable and chunked. -/
theorem upload_mode_by_size (src : String) (n : Nat) :
    ((mkUploadOptions src n).resumable = true ↔ 5 * 1024 * 1024 < n) ∧
    (10 * 1024 * 1024 < n →
      (mkUploadOptions src n).chunkSize = some (10 * 1024 * 1024)) ∧
    (¬ 10 * 1024 * 1024 < n → (mkUploadOptions src n).chunkSize = none) ∧
    ((mkUploadOptions src (12 * 1024 * 1024)).resumable = true ∧
      (mkUploadOptions src (12 * 1024 * 1024)).chunkSize =
        some (10 * 1024 * 1024)) := by
  refine ⟨?_, ?_, ?_, ?_, ?_⟩
  · unfold mkUploadOptions
    split <;> simp
  · intro h
    unfold mkUploadOptions
    rw [if_pos h]
  · intro h
    unfold mkUploadOptions
    rw [if_neg h]
  · norm_num [mkUploadOptions]
  · norm_num [mkUploadOptions]

/-- Witness for C8: the 12 MiB scenario. -/
theorem upload_mode_by_size_witness :
    (mkUploadOptions "/var/www/data/uuid/odm_orthophoto.tif"
      (12 * 1024 * 1024)).resumable = true ∧
    (mkUploadOptions "/var/www/data/uuid/odm_orthophoto.tif"
      (12 * 1024 * 1024)).chunkSize = some (10 * 1024 * 1024) :=
  (upload_mode_by_size "/var/www/data/uuid/odm_orthophoto.tif"
    (12 * 1024 * 1024)).2.2.2

/-- Skipped path: the iterator does nothing and calls `done()` with no
argument. -/
theorem cleanupStep_skip (fsy : CleanupFs) (srcFolder p : String)
    (h : fsy.pathExists (pathJoin srcFolder p) = false) :
    cleanupStep fsy srcFolder p = Except.ok (none, [], []) := by
  simp [cleanupStep, h]

/-- When `lstatSync` does not throw, the iterator finishes, passes no
error to the series continuation `done` (every branch of the source calls
`done()` with no argument), and attempts a deletion exactly when the path
exists, whether or not the deletion then fails. -/
theorem cleanupStep_ok_cases (fsy : CleanupFs) (srcFolder p : String)
    (hstat : fsy.pathExists (pathJoin srcFolder p) = true →
      ∃ b, fsy.lstatIsDirectory (pathJoin srcFolder p) = Except.ok b) :
    ∃ w, cleanupStep fsy srcFolder p = Except.ok (none, w,
      if fsy.pathExists (pathJoin srcFolder p) = true then [p]
      else []) := by
  by_cases h : fsy.pathExists (pathJoin srcFolder p) = false
  · refine ⟨[], ?_⟩
    rw [if_neg (by simp [h])]
    exact cleanupStep_skip fsy srcFolder p h
  · have h2 : fsy.pathExists (pathJoin srcFolder p) = true := by
      cases hb : fsy.pathExists (pathJoin srcFolder p)
      · exact absurd hb h
      · rfl
    obtain ⟨b, hb⟩ := hstat h2
    rw [if_pos h2]
    cases b
    · cases hu : fsy.unlinkResult (pathJoin srcFolder p) with
      | none => exact ⟨[], by simp [cleanupStep, h2, hb, hu]⟩
      | some m =>
          exact ⟨["Failed to delete file " ++ pathJoin srcFolder p ++
            ": " ++ m], by simp [cleanupStep, h2, hb, hu]⟩
    · cases hrm : fsy.rmdirResult (pathJoin srcFolder p) with
      | none => exact ⟨[], by simp [cleanupStep, h2, hb, hrm]⟩
      | some m =>
          exact ⟨["Failed to delete directory " ++ pathJoin srcFolder p ++
            ": " ++ m], by simp [cleanupStep, h2, hb, hrm]⟩

/-- A failing file deletion is logged as exactly one warning naming the
path, and the iteration still continues with no series error. -/
theorem cleanupStep_file_warning (fsy : CleanupFs) (srcFolder p m : String)
    (hex : fsy.pathExists (pathJoin srcFolder p) = true)
    (hdir : fsy.lstatIsDirectory (pathJoin srcFolder p) = Except.ok false)
    (hunl : fsy.unlinkResult (pathJoin srcFolder p) = some m) :
    cleanupStep fsy srcFolder p = Except.ok (none,
      ["Failed to delete file " ++ pathJoin srcFolder p ++ ": " ++ m],
      [p]) := by
  simp [cleanupStep, hex, hdir, hunl]

/-- A failing directory deletion (`rimraf`) is logged as exactly one
warning naming the path, and the iteration still continues with no series
error. -/
theorem cleanupStep_dir_warning (fsy : CleanupFs) (srcFolder p m : String)
    (hex : fsy.pathExists (pathJoin srcFolder p) = true)
    (hdir : fsy.lstatIsDirectory (pathJoin srcFolder p) = Except.ok true)
    (hrm : fsy.rmdirResult (pathJoin srcFolder p) = some m) :
    cleanupStep fsy srcFolder p = Except.ok (none,
      ["Failed to delete directory " ++ pathJoin srcFolder p ++ ": " ++ m],
      [p]) := by
  simp [cleanupStep, hex, hdir, hrm]

/-- C9 counterexample: if `lstatSync` throws while iterating (the source
iterator has no `try`/`catch`), the exception escapes and the completion
callback is never invoked — contradicting the claim that the callback is
always invoked with no error on every input. -/
theorem cleanup_callback_missed_on_lstat_throw :
    cleanupLocalPaths cleanupFsCrash "/var/www/data/uuid" ["images"] =
      Except.error "EACCES: permission denied" ∧
    cleanupCallbackFired
      (cleanupLocalPaths cleanupFsCrash "/var/www/data/uuid"
        ["images"]) = false :=
  ⟨rfl, rfl⟩

/-- C9 (amended): cleanup is best-effort over deletions — whenever the
`lstatSync` of each existing path returns (does not throw), the run
reaches the completion callback with no error however many deletions
fail, a failure does not stop the remaining deletions (every existing
path is attempted), and a failing deletion — file unlink or directory
`rimraf` alike — is logged as a warning naming the path. -/
theorem cleanup_best_effort (fsy : CleanupFs) (srcFolder : String)
    (paths : List String)
    (hstat : ∀ p ∈ paths, fsy.pathExists (pathJoin srcFolder p) = true →
      ∃ b, fsy.lstatIsDirectory (pathJoin srcFolder p) = Except.ok b) :
    ∃ r, cleanupLocalPaths fsy srcFolder paths = Except.ok r ∧
      r.cbErr = none ∧
      r.attempted = paths.filter
        (fun p => fsy.pathExists (pathJoin srcFolder p)) ∧
      (∀ p ∈ paths, ∀ m, fsy.pathExists (pathJoin srcFolder p) = true →
        fsy.lstatIsDirectory (pathJoin srcFolder p) = Except.ok false →
        fsy.unlinkResult (pathJoin srcFolder p) = some m →
        ("Failed to delete file " ++ pathJoin srcFolder p ++ ": " ++ m) ∈
          r.warnings) ∧
      (∀ p ∈ paths, ∀ m, fsy.pathExists (pathJoin srcFolder p) = true →
        fsy.lstatIsDirectory (pathJoin srcFolder p) = Except.ok true →
        fsy.rmdirResult (pathJoin srcFolder p) = some m →
        ("Failed to delete directory " ++ pathJoin srcFolder p ++ ": " ++
          m) ∈ r.warnings) := by
  induction paths with
  | nil =>
      refine ⟨{ cbErr := none, warnings := [], attempted := [] }, rfl, rfl,
        rfl, ?_, ?_⟩
      · intro p hp
        simp at hp
      · intro p hp
        simp at hp
  | cons q rest ih =>
      obtain ⟨r, hr, hcb, hatt, hfile, hdirw⟩ :=
        ih (fun p hp => hstat p (List.mem_cons_of_mem _ hp))
      obtain ⟨w, hw⟩ := cleanupStep_ok_cases fsy srcFolder q
        (hstat q (List.mem_cons_self _ _))
      have heq : cleanupLocalPaths fsy srcFolder (q :: rest) =
          Except.ok
            { cbErr := r.cbErr, warnings := w ++ r.warnings,
              attempted :=
                (if fsy.pathExists (pathJoin srcFolder q) = true then [q] else []) ++
                  r.attempted } := by
        conv_lhs => rw [cleanupLocalPaths]
        rw [hw, hr]
      refine ⟨_, heq, hcb, ?_, ?_, ?_⟩
      · rw [hatt]
        by_cases hq : fsy.pathExists (pathJoin srcFolder q) = true
        · rw [if_pos hq]
          simp [List.filter_cons, hq]
        · have hq2 : fsy.pathExists (pathJoin srcFolder q) = false := by
            cases hb : fsy.pathExists (pathJoin srcFolder q)
            · rfl
            · exact absurd hb hq
          rw [if_neg hq]
          simp [List.filter_cons, hq2]
      · intro p hp m hex hdirf hunl
        rcases List.mem_cons.mp hp with hpq | hpr
        · subst hpq
          have hcomb := hw.symm.trans
            (cleanupStep_file_warning fsy srcFolder p m hex hdirf hunl)
          simp only [Except.ok.injEq, Prod.mk.injEq, true_and] at hcomb
          rw [hcomb.1]
          exact List.mem_append.mpr (Or.inl (by simp))
        · exact List.mem_append.mpr
            (Or.inr (hfile p hpr m hex hdirf hunl))
      · intro p hp m hex hdirt hrm
        rcases List.mem_cons.mp hp with hpq | hpr
        · subst hpq
          have hcomb := hw.symm.trans
            (cleanupStep_dir_warning fsy srcFolder p m hex hdirt hrm)
          simp only [Except.ok.injEq, Prod.mk.injEq, true_and] at hcomb
          rw [hcomb.1]
          exact List.mem_append.mpr (Or.inl (by simp))
        · exact List.mem_append.mpr
            (Or.inr (hdirw p hpr m hex hdirt hrm))

/-- Witness for the amended C9: with a failing file deletion and a
failing directory deletion among three paths, both warnings are logged,
all three paths are attempted and the callback still reports no error. -/
theorem cleanup_best_effort_witness :
    ∃ r, cleanupLocalPaths cleanupFsSample "/var/www/data/uuid"
        ["images", "odm_texturing", "odm_orthophoto.tif"] =
        Except.ok r ∧
      r.cbErr = none ∧
      r.attempted = ["images", "odm_texturing", "odm_orthophoto.tif"] ∧
      ("Failed to delete file /var/www/data/uuid/images: " ++
        "EBUSY: resource busy") ∈ r.warnings ∧
      ("Failed to delete directory /var/www/data/uuid/odm_texturing: " ++
        "ENOTEMPTY: directory not empty") ∈ r.warnings := by
  obtain ⟨r, hr, hcb, hatt, hfile, hdirw⟩ :=
    cleanup_best_effort cleanupFsSample "/var/www/data/uuid"
      ["images", "odm_texturing", "odm_orthophoto.tif"]
      (fun p hp hex => ⟨_, rfl⟩)
  refine ⟨r, hr, hcb, ?_, ?_, ?_⟩
  · rw [hatt]
    rfl
  · have h := hfile "images" (by simp) "EBUSY: resource busy" rfl rfl
      (by rfl)
    simpa using h
  · have h := hdirw "odm_texturing" (by simp)
      "ENOTEMPTY: directory not empty" rfl rfl (by rfl)
    simpa using h

/-- C10: calling `uploadPaths` before the module is initialized (storage
client or bucket handle unset) invokes the completion callback exactly
once with an error, without touching the filesystem or the remote store
(the outcome is independent of the filesystem). -/
theorem uninitialized_immediate_error
    (g : GcsModule) (fsy fsy2 : Fsys)
    (srcFolder bucketName dstFolder : String) (paths : List String)
    (hdis : enabled g = false) :
    uploadPathsStart g fsy srcFolder bucketName dstFolder paths =
      UploadStart.callbackError "GCS is not initialized" ∧
    immediateCallbackCount
      (uploadPathsStart g fsy srcFolder bucketName dstFolder paths) = 1 ∧
    uploadPathsStart g fsy srcFolder bucketName dstFolder paths =
      uploadPathsStart g fsy2 srcFolder bucketName dstFolder paths := by
  have hg : g.storageSet = false ∨ g.bucketSet = false := by
    unfold enabled at hdis
    cases hs : g.storageSet
    · exact Or.inl rfl
    · right
      rw [hs] at hdis
      simpa using hdis
  have hres : ∀ fz : Fsys,
      uploadPathsStart g fz srcFolder bucketName dstFolder paths =
        UploadStart.callbackError "GCS is not initialized" := by
    intro fz
    unfold uploadPathsStart
    rw [if_pos hg]
  refine ⟨hres fsy, ?_, ?_⟩
  · rw [hres fsy]
    rfl
  · rw [hres fsy, hres fsy2]

/-- Witness for C10: with neither handle set, even a filesystem on which
`lstatSync` would throw is never consulted and the callback carries the
initialization error. -/
theorem uninitialized_immediate_error_witness :
    uploadPathsStart gcsOff fsSingleFile "/var/www/data/uuid" "odm-bucket"
      "results" ["odm_orthophoto.tif"] =
      UploadStart.callbackError "GCS is not initialized" ∧
    immediateCallbackCount
      (uploadPathsStart gcsOff fsSingleFile "/var/www/data/uuid"
        "odm-bucket" "results" ["odm_orthophoto.tif"]) = 1 ∧
    uploadPathsStart gcsOff fsSingleFile "/var/www/data/uuid" "odm-bucket"
      "results" ["odm_orthophoto.tif"] =
      uploadPathsStart gcsOff fsBroken "/var/www/data/uuid" "odm-bucket"
        "results" ["odm_orthophoto.tif"] :=
  uninitialized_immediate_error gcsOff fsSingleFile fsBroken
    "/var/www/data/uuid" "odm-bucket" "results" ["odm_orthophoto.tif"] rfl

/-- The run of the all-successful singleton batch. -/
theorem sampleDoneReach :
    Reach alwaysOk 16 (initQ [sampleTask]) sampleDoneState := by
  have h1 : Step alwaysOk 16 (initQ [sampleTask])
      { pending := [], running := [sampleTask], timers := [],
        completed := 0, killed := false, cbCalled := false, cbCalls := [],
        delays := [] } :=
    Step.dispatch _ sampleTask [] rfl (by decide)
  have h2 : Step alwaysOk 16
      { pending := [], running := [sampleTask], timers := [],
        completed := 0, killed := false, cbCalled := false, cbCalls := [],
        delays := [] } sampleDoneState :=
    Step.succeed _ [] [] sampleTask rfl rfl
  exact Relation.ReflTransGen.head h1 (Relation.ReflTransGen.single h2)

/-- The one-step run of the always-failing singleton batch up to the point
where the worker holds the task. -/
theorem sampleRunReach :
    Reach alwaysFail 16 (initQ [sampleTask]) (failStRun 0 []) :=
  Relation.ReflTransGen.single
    (Step.dispatch _ sampleTask [] rfl (by decide))

/-- C1: for every batch the pool phase of `uploadPaths` starts, along
every interleaving of the workers, the completion callback is invoked at
most once, exactly once when the batch has fully drained, with no error
while no fatal abort happened, and with the fatal error of a
retries-exhausted failed task when it did. -/
theorem uploadPaths_callback_exactly_once
    (g : GcsModule) (fsy : Fsys) (srcFolder bucketName dstFolder : String)
    (paths : List String) (tasks : List UTask)
    (upl : String → Nat → Option String) (par : Nat) (s : QState)
    (hstart : uploadPathsStart g fsy srcFolder bucketName dstFolder paths =
      UploadStart.pool tasks)
    (hreach : Reach upl par (initQ tasks) s) :
    s.cbCalls.length ≤ 1 ∧
    (Terminal s → s.cbCalls.length = 1) ∧
    (s.killed = false → ∀ e ∈ s.cbCalls, e = none) ∧
    (s.killed = true → ∃ t m, upl t.src t.retries = some m ∧
      ¬ t.retries < MAX_RETRIES ∧
      s.cbCalls = [some (mkFatalError t m)]) := by
  obtain ⟨hbl, hne⟩ := uploadPathsStart_pool_inv hstart
  obtain ⟨h1, h2, h3, h4, h5, h6, h7, h8⟩ := batchInv_reach hne hreach
  refine ⟨?_, ?_, ?_, h4⟩
  · rw [h1]
    split <;> simp
  · intro hterm
    rw [h1, h6 hterm]
    rfl
  · intro hk e he
    rcases h3 hk with hnil | hone
    · rw [hnil] at he
      simp at he
    · rw [hone] at he
      simpa using he

/-- Witness for C1 at the all-successful singleton batch. -/
theorem uploadPaths_callback_exactly_once_witness :
    sampleDoneState.cbCalls.length ≤ 1 ∧
    (Terminal sampleDoneState → sampleDoneState.cbCalls.length = 1) ∧
    (sampleDoneState.killed = false →
      ∀ e ∈ sampleDoneState.cbCalls, e = none) ∧
    (sampleDoneState.killed = true → ∃ t m,
      alwaysOk t.src t.retries = some m ∧ ¬ t.retries < MAX_RETRIES ∧
      sampleDoneState.cbCalls = [some (mkFatalError t m)]) :=
  uploadPaths_callback_exactly_once gcsReady fsSingleFile
    "/var/www/data/uuid" "odm-bucket" "results" ["odm_orthophoto.tif"]
    [sampleTask] alwaysOk 16 sampleDoneState (by decide) sampleDoneReach

/-- C2: a failed attempt with retry count strictly below `MAX_RETRIES`
increments the count and re-submits the task to the pool after a delay of
`2 ^ attempt` seconds (this is the only source of scheduled delays), and
the always-failing task observes exactly the delays 2 s, 4 s, 8 s, 16 s,
32 s before the batch fails with an error naming the file and the retry
count. -/
theorem retry_backoff_schedule
    (upl : String → Nat → Option String) (par : Nat) (s s' : QState)
    (hstep : Step upl par s s')
    (hgrow : s.delays.length < s'.delays.length) :
    (∃ l₁ l₂ t m, s.running = l₁ ++ t :: l₂ ∧
      upl t.src t.retries = some m ∧ t.retries < MAX_RETRIES ∧
      s'.delays = s.delays ++ [2 ^ (t.retries + 1) * 1000] ∧
      s'.timers = s.timers ++ [({ t with retries := t.retries + 1 },
        2 ^ (t.retries + 1) * 1000)]) ∧
    Reach alwaysFail 16 (initQ [sampleTask]) sampleFatalState ∧
    sampleFatalState.delays = [2000, 4000, 8000, 16000, 32000] ∧
    sampleFatalState.cbCalls = [some ("Failed to upload " ++
      "odm_orthophoto.tif after 5 retries: socket hang up")] := by
  refine ⟨delays_growth_inv hstep hgrow, sampleFatalReach, rfl, ?_⟩
  rfl

/-- Witness for C2 at the first failure of the always-failing task. -/
theorem retry_backoff_schedule_witness :
    (∃ l₁ l₂ t m, (failStRun 0 []).running = l₁ ++ t :: l₂ ∧
      alwaysFail t.src t.retries = some m ∧ t.retries < MAX_RETRIES ∧
      (failStWait 0 []).delays = (failStRun 0 []).delays ++
        [2 ^ (t.retries + 1) * 1000] ∧
      (failStWait 0 []).timers = (failStRun 0 []).timers ++
        [({ t with retries := t.retries + 1 },
          2 ^ (t.retries + 1) * 1000)]) ∧
    Reach alwaysFail 16 (initQ [sampleTask]) sampleFatalState ∧
    sampleFatalState.delays = [2000, 4000, 8000, 16000, 32000] ∧
    sampleFatalState.cbCalls = [some ("Failed to upload " ++
      "odm_orthophoto.tif after 5 retries: socket hang up")] :=
  retry_backoff_schedule alwaysFail 16 (failStRun 0 []) (failStWait 0 [])
    (Step.failRetry _ [] [] { sampleTask with retries := 0 }
      "socket hang up" rfl rfl (by decide))
    (by decide)

/-- C3: once the batch is aborted (queue killed by the first fatal error),
nothing that never started remains dispatchable — every task still in the
pending queue is a re-pushed retry with at least one attempt behind it —
the callback has fired exactly once, with the fatal error naming the
failing file, and tasks still in flight are not interrupted: each of them
can still take its own step. -/
theorem abort_stops_new_tasks
    (upl : String → Nat → Option String) (par : Nat) (tasks : List UTask)
    (s : QState) (hne : tasks ≠ [])
    (hreach : Reach upl par (initQ tasks) s) (hkill : s.killed = true) :
    (∀ t ∈ s.pending, 0 < t.retries) ∧
    s.cbCalls.length = 1 ∧
    (∃ t m, upl t.src t.retries = some m ∧ ¬ t.retries < MAX_RETRIES ∧
      s.cbCalls = [some (mkFatalError t m)]) ∧
    (∀ t ∈ s.running, ∃ s2, Step upl par s s2) := by
  obtain ⟨h1, h2, h3, h4, h5, h6, h7, h8⟩ := batchInv_reach hne hreach
  refine ⟨h7 hkill, ?_, h4 hkill, ?_⟩
  · rw [h1, h2 hkill]
    rfl
  · intro t ht
    obtain ⟨l₁, l₂, hsplit⟩ := List.append_of_mem ht
    cases hok : upl t.src t.retries with
    | none => exact ⟨_, Step.succeed _ l₁ l₂ t hsplit hok⟩
    | some m =>
        by_cases hlt : t.retries < MAX_RETRIES
        · exact ⟨_, Step.failRetry _ l₁ l₂ t m hsplit hok hlt⟩
        · exact ⟨_, Step.failFatal _ l₁ l₂ t m hsplit hok hlt⟩

/-- Witness for C3 at the aborted state of the always-failing batch. -/
theorem abort_stops_new_tasks_witness :
    (∀ t ∈ sampleFatalState.pending, 0 < t.retries) ∧
    sampleFatalState.cbCalls.length = 1 ∧
    (∃ t m, alwaysFail t.src t.retries = some m ∧
      ¬ t.retries < MAX_RETRIES ∧
      sampleFatalState.cbCalls = [some (mkFatalError t m)]) ∧
    (∀ t ∈ sampleFatalState.running,
      ∃ s2, Step alwaysFail 16 sampleFatalState s2) :=
  abort_stops_new_tasks alwaysFail 16 [sampleTask] sampleFatalState
    (by decide) sampleFatalReach rfl

/-- C5: in every reachable state of a batch whose tasks start at
`retries = 0`, every task everywhere — pending, running, or waiting out a
retry timeout — satisfies `retries ≤ MAX_RETRIES` (the lower bound
`0 ≤ retries` is a typing invariant), and whatever step the state takes,
the only event that ever reschedules a task is a failure at a retry count
strictly below `MAX_RETRIES` — a task whose retries are exhausted is
terminal and is never re-enqueued. -/
theorem retries_bounded_and_no_requeue_after_exhaustion
    (upl : String → Nat → Option String) (par : Nat) (tasks : List UTask)
    (s : QState)
    (h0 : ∀ t ∈ tasks, t.retries = 0)
    (hreach : Reach upl par (initQ tasks) s) :
    (∀ t ∈ s.pending, t.retries ≤ MAX_RETRIES) ∧
    (∀ t ∈ s.running, t.retries ≤ MAX_RETRIES) ∧
    (∀ td ∈ s.timers, (Prod.fst td).retries ≤ MAX_RETRIES) ∧
    (∀ s2, Step upl par s s2 → s.timers.length < s2.timers.length →
      ∃ l₁ l₂ t m, s.running = l₁ ++ t :: l₂ ∧
        upl t.src t.retries = some m ∧ t.retries < MAX_RETRIES ∧
        s2.timers = s.timers ++ [({ t with retries := t.retries + 1 },
          2 ^ (t.retries + 1) * 1000)]) := by
  obtain ⟨hbp, hbr, hbt⟩ := retriesBounded_reach h0 hreach
  exact ⟨hbp, hbr, hbt,
    fun s2 hstep hgrow => timers_growth_inv hstep hgrow⟩

/-- Witness for C5 at the state where the worker holds the
always-failing task. -/
theorem retries_bounded_and_no_requeue_after_exhaustion_witness :
    (∀ t ∈ (failStRun 0 []).pending, t.retries ≤ MAX_RETRIES) ∧
    (∀ t ∈ (failStRun 0 []).running, t.retries ≤ MAX_RETRIES) ∧
    (∀ td ∈ (failStRun 0 []).timers,
      (Prod.fst td).retries ≤ MAX_RETRIES) ∧
    (∀ s2, Step alwaysFail 16 (failStRun 0 []) s2 →
      (failStRun 0 []).timers.length < s2.timers.length →
      ∃ l₁ l₂ t m, (failStRun 0 []).running = l₁ ++ t :: l₂ ∧
        alwaysFail t.src t.retries = some m ∧ t.retries < MAX_RETRIES ∧
        s2.timers = (failStRun 0 []).timers ++
          [({ t with retries := t.retries + 1 },
            2 ^ (t.retries + 1) * 1000)]) :=
  retries_bounded_and_no_requeue_after_exhaustion alwaysFail 16
    [sampleTask] (failStRun 0 []) (by decide) sampleRunReach
